import Mathlib

/-!
# Verification of the OPTACOMP inventory/sales backend

Shallow embedding of `backend/app/api/inventory.py` and
`backend/app/api/sales.py` (with the entity definitions of
`backend/app/models/*.py` and the request schemas of
`backend/app/schemas/*.py`) as pure Lean functions over an explicit
database state, together with theorems about the endpoints.

Conventions of the embedding:
* SQLAlchemy rows become Lean structures; the `Float` price columns are
  modelled as `Rat` (no arithmetic is ever performed on them by the code);
  `Integer` quantity columns become `Int`; timestamps become `Nat` time
  units with 86400 units per day.
* A SQLAlchemy `Session` is modelled by a pair of database states: the
  last committed state and the current in-session state.  `db.add`,
  `db.delete` and attribute mutation edit the current state;
  `db.commit()` flushes every pending change, i.e. replaces the committed
  state by the current one; an unhandled exception discards the current
  state, leaving the last committed state as the durable outcome.
* `query(...).first()` is `List.find?`; `query(...).delete()` removes all
  matching rows; the identity map of the session means a second `first()`
  for the same row observes in-session mutations.
* Auto-increment primary keys are modelled by `nextId`.
-/

namespace OptaErp

/-- `app/models/inventory.py` `StockStatus`. -/
inductive StockStatus where
  | in_stock
  | low_stock
  | out_of_stock
deriving DecidableEq, Repr

/-- `app/models/sales.py` `PaymentMethod`. -/
inductive PaymentMethod where
  | cash
  | credit_card
  | debit_card
  | bank_transfer
  | mobile_payment
deriving DecidableEq, Repr

/-- `app/models/inventory.py` `Category` row (timestamp columns omitted:
no endpoint reads them). -/
structure Category where
  id : Nat
  name : String
  description : Option String
deriving DecidableEq, Repr

/-- `app/models/inventory.py` `Product` row. -/
structure Product where
  id : Nat
  category_id : Nat
  name : String
  description : Option String
  model_number : Option String
  specifications : Option String
  cost_price : Rat
  selling_price : Rat
  barcode : Option String
  image_url : Option String
deriving DecidableEq, Repr

/-- `app/models/inventory.py` `InventoryItem` row. -/
structure InventoryItem where
  id : Nat
  product_id : Nat
  quantity : Int
  location : Option String
  status : StockStatus
deriving DecidableEq, Repr

/-- `app/models/sales.py` `Sale` row; `created_at` is a `Nat` timestamp
(86400 units per day, filled from the clock at insertion time). -/
structure Sale where
  id : Nat
  user_id : Nat
  customer_name : Option String
  customer_email : Option String
  customer_phone : Option String
  total_amount : Rat
  payment_method : PaymentMethod
  created_at : Nat
deriving DecidableEq, Repr

/-- `app/models/sales.py` `SaleItem` row. -/
structure SaleItem where
  id : Nat
  sale_id : Nat
  product_id : Nat
  quantity : Int
  unit_price : Rat
  total_price : Rat
deriving DecidableEq, Repr

/-- The relational store: one list of rows per table. -/
structure DB where
  categories : List Category
  products : List Product
  inventory : List InventoryItem
  sales : List Sale
  saleItems : List SaleItem
deriving DecidableEq, Repr

/-- The empty database. -/
def DB.empty : DB := ⟨[], [], [], [], []⟩

/-- Auto-increment primary key: one more than the largest id in use. -/
def nextId (ids : List Nat) : Nat := ids.foldr max 0 + 1

/-- Errors surfaced by the endpoints (`HTTPException`s), plus the
unhandled Python `NameError` of `create_sale` (see `createSale`). -/
inductive ApiError where
  | categoryNotFound
  | productNotFound (product_id : Nat)
  | insufficientStock (productName : String)
  | saleNotFound
  | nameError
deriving DecidableEq, Repr

/-! ## Request schemas (`app/schemas/inventory.py`, `app/schemas/sales.py`)

For the `*Update` schemas pydantic's `exclude_unset` dict is modelled by
wrapping each updatable field in `Option`: `none` means the field was
absent from the request body, `some v` that it was present with value
`v`.  Fields whose column is nullable carry an inner `Option`. -/

structure CategoryCreate where
  name : String
  description : Option String
deriving DecidableEq, Repr

structure CategoryUpdate where
  name : Option String
  description : Option (Option String)
deriving DecidableEq, Repr

structure ProductCreate where
  category_id : Nat
  name : String
  description : Option String
  model_number : Option String
  specifications : Option String
  cost_price : Rat
  selling_price : Rat
  barcode : Option String
  image_url : Option String
deriving DecidableEq, Repr

structure ProductUpdate where
  category_id : Option Nat
  name : Option String
  description : Option (Option String)
  model_number : Option (Option String)
  specifications : Option (Option String)
  cost_price : Option Rat
  selling_price : Option Rat
  barcode : Option (Option String)
  image_url : Option (Option String)
deriving DecidableEq, Repr

structure InventoryItemUpdate where
  quantity : Option Int
  location : Option (Option String)
  status : Option StockStatus
deriving DecidableEq, Repr

structure SaleItemCreate where
  product_id : Nat
  quantity : Int
  unit_price : Rat
  total_price : Rat
deriving DecidableEq, Repr

structure SaleCreate where
  customer_name : Option String
  customer_email : Option String
  customer_phone : Option String
  total_amount : Rat
  payment_method : PaymentMethod
  items : List SaleItemCreate
deriving DecidableEq, Repr

/-- The response model `ProductWithStock` of the product read endpoints:
the product's own fields plus `current_stock` and `status`. -/
structure ProductWithStock where
  product : Product
  current_stock : Int
  status : StockStatus
deriving DecidableEq, Repr

/-! ## Catalog endpoints (`app/api/inventory.py`) -/

/-- `create_category`: insert the new row and commit. -/
def createCategory (db : DB) (c : CategoryCreate) : Category × DB :=
  let row : Category :=
    { id := nextId (db.categories.map (·.id))
      name := c.name
      description := c.description }
  (row, { db with categories := db.categories ++ [row] })

/-- The `setattr` loop of `update_category` applied to one row. -/
def applyCategoryUpdate (c : Category) (u : CategoryUpdate) : Category :=
  { c with
    name := u.name.getD c.name
    description := u.description.getD c.description }

/-- Update the first row with the given id (the session's identity map:
`first()` returns one object and `setattr` mutates exactly it). -/
def updateFirstCategory (l : List Category) (cid : Nat)
    (u : CategoryUpdate) : List Category :=
  match l with
  | [] => []
  | c :: rest =>
      if c.id = cid then applyCategoryUpdate c u :: rest
      else c :: updateFirstCategory rest cid u

/-- `update_category`: 404 when the id is unknown, otherwise set exactly
the fields present in the request body (`dict(exclude_unset=True)`). -/
def updateCategory (db : DB) (cid : Nat) (u : CategoryUpdate) :
    Except ApiError Category × DB :=
  match db.categories.find? (fun c => c.id = cid) with
  | none => (.error .categoryNotFound, db)
  | some c =>
      (.ok (applyCategoryUpdate c u),
       { db with categories := updateFirstCategory db.categories cid u })

/-- `delete_category`: 404 when the id is unknown, otherwise remove the
row (no guard for products still referencing it). -/
def deleteCategory (db : DB) (cid : Nat) : Except ApiError Unit × DB :=
  match db.categories.find? (fun c => c.id = cid) with
  | none => (.error .categoryNotFound, db)
  | some _ =>
      (.ok (), { db with categories := db.categories.filter (fun c => c.id ≠ cid) })

/-- `create_product`: 404 when the category is unknown; otherwise insert
the product, then insert its zero-quantity inventory row
(`InventoryItem(product_id=..., quantity=0, status=StockStatus.OUT_OF_STOCK)`)
and commit. -/
def createProduct (db : DB) (p : ProductCreate) : Except ApiError Product × DB :=
  match db.categories.find? (fun c => c.id = p.category_id) with
  | none => (.error .categoryNotFound, db)
  | some _ =>
      let pid := nextId (db.products.map (·.id))
      let row : Product :=
        { id := pid
          category_id := p.category_id
          name := p.name
          description := p.description
          model_number := p.model_number
          specifications := p.specifications
          cost_price := p.cost_price
          selling_price := p.selling_price
          barcode := p.barcode
          image_url := p.image_url }
      let inv : InventoryItem :=
        { id := nextId (db.inventory.map (·.id))
          product_id := pid
          quantity := 0
          location := none
          status := .out_of_stock }
      (.ok row,
       { db with
          products := db.products ++ [row]
          inventory := db.inventory ++ [inv] })

/-- The `setattr` loop of `update_product` applied to one row. -/
def applyProductUpdate (p : Product) (u : ProductUpdate) : Product :=
  { p with
    category_id := u.category_id.getD p.category_id
    name := u.name.getD p.name
    description := u.description.getD p.description
    model_number := u.model_number.getD p.model_number
    specifications := u.specifications.getD p.specifications
    cost_price := u.cost_price.getD p.cost_price
    selling_price := u.selling_price.getD p.selling_price
    barcode := u.barcode.getD p.barcode
    image_url := u.image_url.getD p.image_url }

/-- Update the first product row with the given id. -/
def updateFirstProduct (l : List Product) (pid : Nat)
    (u : ProductUpdate) : List Product :=
  match l with
  | [] => []
  | p :: rest =>
      if p.id = pid then applyProductUpdate p u :: rest
      else p :: updateFirstProduct rest pid u

/-- `update_product`: 404 when the product is unknown; 404 when a
`category_id` is present in the body but names no category; otherwise
set exactly the fields present in the request body. -/
def updateProduct (db : DB) (pid : Nat) (u : ProductUpdate) :
    Except ApiError Product × DB :=
  match db.products.find? (fun p => p.id = pid) with
  | none => (.error (.productNotFound pid), db)
  | some p =>
      match u.category_id with
      | some cid =>
          match db.categories.find? (fun c => c.id = cid) with
          | none => (.error .categoryNotFound, db)
          | some _ =>
              (.ok (applyProductUpdate p u),
               { db with products := updateFirstProduct db.products pid u })
      | none =>
          (.ok (applyProductUpdate p u),
           { db with products := updateFirstProduct db.products pid u })

/-- `delete_product`: 404 when the product is unknown; otherwise the
handler itself first deletes every inventory row of the product
(`db.query(InventoryItem).filter(...).delete()`), then deletes the
product row, and commits. -/
def deleteProduct (db : DB) (pid : Nat) : Except ApiError Unit × DB :=
  match db.products.find? (fun p => p.id = pid) with
  | none => (.error (.productNotFound pid), db)
  | some _ =>
      (.ok (),
       { db with
          inventory := db.inventory.filter (fun iv => iv.product_id ≠ pid)
          products := db.products.filter (fun p => p.id ≠ pid) })

/-- The left outer join of `read_products`:
`query(Product, InventoryItem).join(..., Product.id == InventoryItem.product_id, isouter=True)`.
Each product yields one row per matching inventory row, or a single row
paired with `none` when it has no inventory row. -/
def productJoinRows (db : DB) : List (Product × Option InventoryItem) :=
  db.products.flatMap (fun p =>
    match db.inventory.filter (fun iv => iv.product_id = p.id) with
    | [] => [(p, none)]
    | l => l.map (fun iv => (p, some iv)))

/-- Case-insensitive containment, the semantics of
`column.ilike(f"%{search}%")` on a non-null column. -/
def ilikeContains (column searchTerm : String) : Bool :=
  decide (List.IsInfix searchTerm.toLower.toList column.toLower.toList)

/-- `ilike` on a nullable column: `NULL` never matches. -/
def ilikeOpt (column : Option String) (searchTerm : String) : Bool :=
  match column with
  | none => false
  | some s => ilikeContains s searchTerm

/-- The row construction shared by `read_products` and `read_product`:
inventory information is added when a row exists, otherwise
`current_stock = 0` and `status = StockStatus.OUT_OF_STOCK`. -/
def withStock (p : Product) (inv : Option InventoryItem) : ProductWithStock :=
  match inv with
  | some iv => { product := p, current_stock := iv.quantity, status := iv.status }
  | none => { product := p, current_stock := 0, status := .out_of_stock }

/-- `read_products`: outer join, optional category filter, optional
case-insensitive search over name / model number / description,
pagination, then attach stock defaults. -/
def readProducts (db : DB) (skip limit : Nat) (category_id : Option Nat)
    (search : Option String) : List ProductWithStock :=
  let rows := productJoinRows db
  let rows :=
    match category_id with
    | none => rows
    | some cid => rows.filter (fun r => r.1.category_id = cid)
  let rows :=
    match search with
    | none => rows
    | some s =>
        rows.filter (fun r =>
          ilikeContains r.1.name s || ilikeOpt r.1.model_number s ||
            ilikeOpt r.1.description s)
  ((rows.drop skip).take limit).map (fun r => withStock r.1 r.2)

/-- `read_product`: 404 when the product is unknown; otherwise report the
product with its inventory quantity and status, defaulting to
`current_stock = 0`, `status = out_of_stock` when no inventory row
exists. -/
def readProduct (db : DB) (pid : Nat) : Except ApiError ProductWithStock :=
  match db.products.find? (fun p => p.id = pid) with
  | none => .error (.productNotFound pid)
  | some p =>
      .ok (withStock p (db.inventory.find? (fun iv => iv.product_id = pid)))

/-- Update the first inventory row with the given product id, setting its
quantity (the identity map: `inventory.quantity -= ...` mutates the one
object returned by `first()`). -/
def updateFirstInvQty (l : List InventoryItem) (pid : Nat) (q : Int) :
    List InventoryItem :=
  match l with
  | [] => []
  | iv :: rest =>
      if iv.product_id = pid then { iv with quantity := q } :: rest
      else iv :: updateFirstInvQty rest pid q

/-- Apply an `InventoryItemUpdate` to one row (partial-update: only the
fields present in the body change). -/
def applyInventoryUpdate (iv : InventoryItem) (u : InventoryItemUpdate) :
    InventoryItem :=
  { iv with
    quantity := u.quantity.getD iv.quantity
    location := u.location.getD iv.location
    status := u.status.getD iv.status }

/-- Update the first inventory row with the given product id by an
`InventoryItemUpdate`. -/
def updateFirstInv (l : List InventoryItem) (pid : Nat)
    (u : InventoryItemUpdate) : List InventoryItem :=
  match l with
  | [] => []
  | iv :: rest =>
      if iv.product_id = pid then applyInventoryUpdate iv u :: rest
      else iv :: updateFirstInv rest pid u

/-- Modelled from the spec: `update_inventory` — the source file
`app/api/inventory.py` is truncated at line 203, right after the branch
that creates a missing inventory row via `InventoryItem(product_id=product_id)`
(column defaults: `quantity=0`, `status=StockStatus.IN_STOCK`,
`location` null); the rest of the handler body is absent.  Per the spec,
the endpoint checks that the product exists (404 otherwise) and applies
partial-update semantics: only the fields explicitly present in the
request body are mutated, absent fields are left untouched. -/
def updateInventory (db : DB) (pid : Nat) (u : InventoryItemUpdate) :
    Except ApiError InventoryItem × DB :=
  match db.products.find? (fun p => p.id = pid) with
  | none => (.error (.productNotFound pid), db)
  | some _ =>
      match db.inventory.find? (fun iv => iv.product_id = pid) with
      | some iv =>
          (.ok (applyInventoryUpdate iv u),
           { db with inventory := updateFirstInv db.inventory pid u })
      | none =>
          let fresh : InventoryItem :=
            { id := nextId (db.inventory.map (·.id))
              product_id := pid
              quantity := 0
              location := none
              status := .in_stock }
          (.ok (applyInventoryUpdate fresh u),
           { db with inventory := db.inventory ++ [applyInventoryUpdate fresh u] })

/-! ## Sales endpoints (`app/api/sales.py`)

`create_sale` first inserts and commits the sale header (lines 29-39).
It then iterates the line items against the *session*: on a missing
product or insufficient stock it deletes the header and commits — and
that commit flushes every pending change of the session, i.e. the
sale-item rows and inventory decrements of the *earlier* line items of
the same request become durable.  The status-recomputation branch
references `StockStatus`, a name that `sales.py` never imports: reaching
it raises a `NameError`, which no handler catches, so neither the final
commit nor the compensating delete runs and the session's uncommitted
changes are discarded when the request ends. -/

/-- Outcome of the line-item loop of `create_sale` (lines 42-73), over
the in-session state.  The abort constructors carry the state that the
compensating `db.delete(db_sale); db.commit()` makes durable. -/
inductive ItemsResult where
  | ok (cur : DB)
  | productNotFound (product_id : Nat) (flushed : DB)
  | insufficientStock (productName : String) (flushed : DB)
  | nameErr
deriving DecidableEq, Repr

/-- `db.delete(db_sale)` in the abort branches: remove the header from
the session state. -/
def deleteSaleHeader (cur : DB) (sid : Nat) : DB :=
  { cur with sales := cur.sales.filter (fun s => s.id ≠ sid) }

/-- The line-item loop of `create_sale` (lines 42-73).  `cur` is the
in-session state after the header insert; `sid` the header's id. -/
def processItems (cur : DB) (sid : Nat) : List SaleItemCreate → ItemsResult
  | [] => .ok cur
  | item :: rest =>
      match cur.products.find? (fun p => p.id = item.product_id) with
      | none => .productNotFound item.product_id (deleteSaleHeader cur sid)
      | some product =>
          match cur.inventory.find? (fun iv => iv.product_id = item.product_id) with
          | none => .insufficientStock product.name (deleteSaleHeader cur sid)
          | some inv =>
              if inv.quantity < item.quantity then
                .insufficientStock product.name (deleteSaleHeader cur sid)
              else
                let row : SaleItem :=
                  { id := nextId (cur.saleItems.map (·.id))
                    sale_id := sid
                    product_id := item.product_id
                    quantity := item.quantity
                    unit_price := item.unit_price
                    total_price := item.total_price }
                let cur1 := { cur with saleItems := cur.saleItems ++ [row] }
                let newQty := inv.quantity - item.quantity
                let cur2 :=
                  { cur1 with
                      inventory := updateFirstInvQty cur1.inventory item.product_id newQty }
                if newQty ≤ 0 then .nameErr
                else if newQty < 5 then .nameErr
                else processItems cur2 sid rest

/-- The sale header row built at lines 29-36 (`created_at` filled by the
database clock `now`). -/
def mkSaleHeader (db : DB) (uid : Nat) (now : Nat) (sale : SaleCreate) : Sale :=
  { id := nextId (db.sales.map (·.id))
    user_id := uid
    customer_name := sale.customer_name
    customer_email := sale.customer_email
    customer_phone := sale.customer_phone
    total_amount := sale.total_amount
    payment_method := sale.payment_method
    created_at := now }

/-- `create_sale`.  Returns the request outcome together with the
durable database state after the request: the state of the last
successful commit (on `NameError` that is the header-only commit of
line 38; on the abort branches it is the flush performed by the
compensating commit; on success the final commit of line 74). -/
def createSale (db : DB) (uid : Nat) (now : Nat) (sale : SaleCreate) :
    Except ApiError Nat × DB :=
  let header := mkSaleHeader db uid now sale
  let committed1 := { db with sales := db.sales ++ [header] }
  match processItems committed1 header.id sale.items with
  | .ok cur => (.ok header.id, cur)
  | .productNotFound pid flushed => (.error (.productNotFound pid), flushed)
  | .insufficientStock pname flushed => (.error (.insufficientStock pname), flushed)
  | .nameErr => (.error .nameError, committed1)

/-- 86400 time units per day: the timestamp of midnight of day `d`,
the value a SQL `date` coerces to when compared with a timestamp. -/
def dayStart (d : Nat) : Nat := d * 86400

/-- Insert a sale into a list ordered by `created_at` descending. -/
def insertSaleDesc (s : Sale) : List Sale → List Sale
  | [] => [s]
  | t :: rest =>
      if t.created_at ≤ s.created_at then s :: t :: rest
      else t :: insertSaleDesc s rest

/-- `order_by(Sale.created_at.desc())` as an insertion sort. -/
def sortSalesDesc : List Sale → List Sale
  | [] => []
  | s :: rest => insertSaleDesc s (sortSalesDesc rest)

/-- `get_sales` (lines 80-100): optional inclusive `created_at >= start_date`
filter, optional exclusive `created_at < end_date + 1 day` filter,
descending order by `created_at`, then `offset(skip).limit(limit)`. -/
def getSales (db : DB) (skip limit : Nat)
    (start_date end_date : Option Nat) : List Sale :=
  let q := db.sales
  let q :=
    match start_date with
    | none => q
    | some s => q.filter (fun sl => dayStart s ≤ sl.created_at)
  let q :=
    match end_date with
    | none => q
    | some d => q.filter (fun sl => sl.created_at < dayStart (d + 1))
  ((sortSalesDesc q).drop skip).take limit

/-- `get_sale`: 404 when the id is unknown. -/
def getSale (db : DB) (sid : Nat) : Except ApiError Sale :=
  match db.sales.find? (fun s => s.id = sid) with
  | none => .error .saleNotFound
  | some s => .ok s

/-! ## Spec-side definitions and reachability -/

/-- The stock-status threshold rule exactly as the spec words it
(§3 data model, §4.3 step 2d): quantity ≤ 0 gives `out_of_stock`,
quantity < 5 gives `low_stock`, otherwise `in_stock`.  Stated from the
spec, to be compared with what `create_sale` actually assigns. -/
def specThresholdStatus (q : Int) : StockStatus :=
  if q ≤ 0 then .out_of_stock
  else if q < 5 then .low_stock
  else .in_stock

/-- The inventory-quantity invariant: every stored quantity is
non-negative. -/
def InvNonneg (db : DB) : Prop := ∀ iv ∈ db.inventory, 0 ≤ iv.quantity

/-- The inventory invariant read off an `ItemsResult`: it holds of the
state each branch of the loop hands on (the `NameError` branch hands on
no state of its own — the durable state there is the header-only commit,
handled at `createSale`). -/
def ResultInv : ItemsResult → Prop
  | .ok c => InvNonneg c
  | .productNotFound _ f => InvNonneg f
  | .insufficientStock _ f => InvNonneg f
  | .nameErr => True

/-- Database states reachable from the empty store by the public
mutating operations, one request at a time (the sequential model).
Every operation advances the state to the durable post-state it
returns, on failure as well as on success.  `update_inventory` is
included with arbitrary request bodies: the schema
(`InventoryItemUpdate.quantity: Optional[int]`) places no lower bound
on the quantity. -/
inductive Reachable : DB → Prop where
  | init : Reachable DB.empty
  | stepCreateCategory (db : DB) (c : CategoryCreate) :
      Reachable db → Reachable (createCategory db c).2
  | stepUpdateCategory (db : DB) (cid : Nat) (u : CategoryUpdate) :
      Reachable db → Reachable (updateCategory db cid u).2
  | stepDeleteCategory (db : DB) (cid : Nat) :
      Reachable db → Reachable (deleteCategory db cid).2
  | stepCreateProduct (db : DB) (p : ProductCreate) :
      Reachable db → Reachable (createProduct db p).2
  | stepUpdateProduct (db : DB) (pid : Nat) (u : ProductUpdate) :
      Reachable db → Reachable (updateProduct db pid u).2
  | stepDeleteProduct (db : DB) (pid : Nat) :
      Reachable db → Reachable (deleteProduct db pid).2
  | stepUpdateInventory (db : DB) (pid : Nat) (u : InventoryItemUpdate) :
      Reachable db → Reachable (updateInventory db pid u).2
  | stepCreateSale (db : DB) (uid now : Nat) (sale : SaleCreate) :
      Reachable db → Reachable (createSale db uid now sale).2

/-- Reachability restricted to well-formed inventory-update requests:
identical to `Reachable` except that an inventory update may only carry
a non-negative quantity.  This is the weakest restriction under which
the non-negativity invariant can hold, since `update_inventory` stores
the given quantity directly. -/
inductive ReachableNN : DB → Prop where
  | init : ReachableNN DB.empty
  | stepCreateCategory (db : DB) (c : CategoryCreate) :
      ReachableNN db → ReachableNN (createCategory db c).2
  | stepUpdateCategory (db : DB) (cid : Nat) (u : CategoryUpdate) :
      ReachableNN db → ReachableNN (updateCategory db cid u).2
  | stepDeleteCategory (db : DB) (cid : Nat) :
      ReachableNN db → ReachableNN (deleteCategory db cid).2
  | stepCreateProduct (db : DB) (p : ProductCreate) :
      ReachableNN db → ReachableNN (createProduct db p).2
  | stepUpdateProduct (db : DB) (pid : Nat) (u : ProductUpdate) :
      ReachableNN db → ReachableNN (updateProduct db pid u).2
  | stepDeleteProduct (db : DB) (pid : Nat) :
      ReachableNN db → ReachableNN (deleteProduct db pid).2
  | stepUpdateInventory (db : DB) (pid : Nat) (u : InventoryItemUpdate)
      (hq : ∀ q, u.quantity = some q → 0 ≤ q) :
      ReachableNN db → ReachableNN (updateInventory db pid u).2
  | stepCreateSale (db : DB) (uid now : Nat) (sale : SaleCreate) :
      ReachableNN db → ReachableNN (createSale db uid now sale).2

/-! ## Concrete states and requests used by counterexamples and
witnesses -/

/-- A product row used by the concrete states below. -/
def sampleProduct : Product :=
  { id := 1
    category_id := 1
    name := "hammer"
    description := none
    model_number := none
    specifications := none
    cost_price := 1
    selling_price := 2
    barcode := none
    image_url := none }

/-- One category, one product, ten units in stock, status `in_stock`. -/
def dbTen : DB :=
  { categories := [{ id := 1, name := "tools", description := none }]
    products := [sampleProduct]
    inventory :=
      [{ id := 1, product_id := 1, quantity := 10, location := none,
         status := .in_stock }]
    sales := []
    saleItems := [] }

/-- Like `dbTen` but the stored status is the stale `out_of_stock`. -/
def dbStale : DB :=
  { dbTen with
    inventory :=
      [{ id := 1, product_id := 1, quantity := 10, location := none,
         status := .out_of_stock }] }

/-- Like `dbTen` but the product has no inventory row at all. -/
def dbNoInv : DB := { dbTen with inventory := [] }

/-- A sale request for the given line items. -/
def mkSaleReq (items : List SaleItemCreate) : SaleCreate :=
  { customer_name := none
    customer_email := none
    customer_phone := none
    total_amount := 5
    payment_method := .cash
    items := items }

/-- Three units of product 1. -/
def itemThree : SaleItemCreate :=
  { product_id := 1, quantity := 3, unit_price := 1, total_price := 3 }

/-- Seven units of product 1: the decrement from ten lands at three,
inside the `NameError` branch. -/
def itemSeven : SaleItemCreate :=
  { product_id := 1, quantity := 7, unit_price := 1, total_price := 7 }

/-- One unit of the nonexistent product 2. -/
def itemMissing : SaleItemCreate :=
  { product_id := 2, quantity := 1, unit_price := 1, total_price := 1 }

/-- A sale on day 5 (timestamp inside the day), used for the
date-filter claim. -/
def saleDayFive : Sale :=
  { id := 1, user_id := 7, customer_name := none, customer_email := none,
    customer_phone := none, total_amount := 5, payment_method := .cash,
    created_at := dayStart 5 + 10 }

/-- A store holding only `saleDayFive`. -/
def dbDayFive : DB := { DB.empty with sales := [saleDayFive] }

/-- The inventory row of `dbTen`. -/
def invRowTen : InventoryItem :=
  { id := 1, product_id := 1, quantity := 10, location := none,
    status := .in_stock }

/-- A category-update request carrying only a new name. -/
def catUpdateW : CategoryUpdate :=
  { name := some "renamed", description := none }

/-- The per-row meaning of partial-update semantics for a category
update aimed at id `cid`: a stored row is either not the target and
exactly unchanged, or it is the target and each field absent from the
request keeps its old value while each present field takes the
requested value. -/
def CategoryPatch (cid : Nat) (u : CategoryUpdate)
    (cOld cNew : Category) : Prop :=
  (cOld.id ≠ cid ∧ cNew = cOld) ∨
  (cOld.id = cid ∧ cNew.id = cOld.id ∧
    (u.name = none → cNew.name = cOld.name) ∧
    (u.description = none → cNew.description = cOld.description) ∧
    (∀ v, u.name = some v → cNew.name = v) ∧
    (∀ v, u.description = some v → cNew.description = v))

/-- Partial-update semantics for a product update aimed at id `pid`,
field by field. -/
def ProductPatch (pid : Nat) (u : ProductUpdate)
    (pOld pNew : Product) : Prop :=
  (pOld.id ≠ pid ∧ pNew = pOld) ∨
  (pOld.id = pid ∧ pNew.id = pOld.id ∧
    (u.category_id = none → pNew.category_id = pOld.category_id) ∧
    (u.name = none → pNew.name = pOld.name) ∧
    (u.description = none → pNew.description = pOld.description) ∧
    (u.model_number = none → pNew.model_number = pOld.model_number) ∧
    (u.specifications = none → pNew.specifications = pOld.specifications) ∧
    (u.cost_price = none → pNew.cost_price = pOld.cost_price) ∧
    (u.selling_price = none → pNew.selling_price = pOld.selling_price) ∧
    (u.barcode = none → pNew.barcode = pOld.barcode) ∧
    (u.image_url = none → pNew.image_url = pOld.image_url) ∧
    (∀ v, u.category_id = some v → pNew.category_id = v) ∧
    (∀ v, u.name = some v → pNew.name = v) ∧
    (∀ v, u.description = some v → pNew.description = v) ∧
    (∀ v, u.model_number = some v → pNew.model_number = v) ∧
    (∀ v, u.specifications = some v → pNew.specifications = v) ∧
    (∀ v, u.cost_price = some v → pNew.cost_price = v) ∧
    (∀ v, u.selling_price = some v → pNew.selling_price = v) ∧
    (∀ v, u.barcode = some v → pNew.barcode = v) ∧
    (∀ v, u.image_url = some v → pNew.image_url = v))

/-- Partial-update semantics for an inventory update aimed at product
`pid`, field by field. -/
def InventoryPatch (pid : Nat) (u : InventoryItemUpdate)
    (iOld iNew : InventoryItem) : Prop :=
  (iOld.product_id ≠ pid ∧ iNew = iOld) ∨
  (iOld.product_id = pid ∧ iNew.id = iOld.id ∧
    iNew.product_id = iOld.product_id ∧
    (u.quantity = none → iNew.quantity = iOld.quantity) ∧
    (u.location = none → iNew.location = iOld.location) ∧
    (u.status = none → iNew.status = iOld.status) ∧
    (∀ v, u.quantity = some v → iNew.quantity = v) ∧
    (∀ v, u.location = some v → iNew.location = v) ∧
    (∀ v, u.status = some v → iNew.status = v))

/-- A product-creation request matching `sampleProduct`. -/
def sampleProductCreate : ProductCreate :=
  { category_id := 1
    name := "hammer"
    description := none
    model_number := none
    specifications := none
    cost_price := 1
    selling_price := 2
    barcode := none
    image_url := none }

/-- The state after creating one category in the empty store. -/
def reachStep1 : DB :=
  (createCategory DB.empty { name := "tools", description := none }).2

/-- The state after then creating one product (which initializes its
inventory row). -/
def reachStep2 : DB := (createProduct reachStep1 sampleProductCreate).2

/-- The inventory row present in `reachStep2`. -/
def reachInvRow : InventoryItem :=
  { id := 1, product_id := 1, quantity := 0, location := none,
    status := .out_of_stock }

/-- An inventory-update request setting the quantity to `-1`: accepted
by the schema, which has no lower bound on `quantity`. -/
def negQtyUpdate : InventoryItemUpdate :=
  { quantity := some (-1), location := none, status := none }

/-- The state reached from `reachStep2` by the negative-quantity
inventory update. -/
def dbNegQty : DB := (updateInventory reachStep2 1 negQtyUpdate).2

/-- An inventory-update request setting the quantity to `10`. -/
def posQtyUpdate : InventoryItemUpdate :=
  { quantity := some 10, location := none, status := none }

/-- The state reached from `reachStep2` by the quantity-10 inventory
update. -/
def dbPosQty : DB := (updateInventory reachStep2 1 posQtyUpdate).2

/-- The sales a listing with `start_date = S`, `end_date = D` matches,
in store order: the two date filters of `get_sales` applied to the
sales table. -/
def matchingSales (db : DB) (S D : Nat) : List Sale :=
  (db.sales.filter (fun sl => dayStart S ≤ sl.created_at)).filter
    (fun sl => sl.created_at < dayStart (D + 1))

/-! ## Helper lemmas -/

theorem le_foldr_max (ids : List Nat) (x : Nat) (h : x ∈ ids) :
    x ≤ ids.foldr max 0 := by
  induction ids with
  | nil => cases h
  | cons y ys ih =>
      rcases List.mem_cons.mp h with rfl | h2
      · exact Nat.le_max_left _ _
      · exact Nat.le_trans (ih h2) (Nat.le_max_right _ _)

/-- A fresh auto-increment id is strictly larger than every id in use. -/
theorem lt_nextId (ids : List Nat) (x : Nat) (h : x ∈ ids) : x < nextId ids :=
  Nat.lt_succ_of_le (le_foldr_max ids x h)

theorem updateFirstCategory_eq_of_forall_ne (l : List Category) (cid : Nat)
    (u : CategoryUpdate) (h : ∀ c ∈ l, c.id ≠ cid) :
    updateFirstCategory l cid u = l := by
  induction l with
  | nil => rfl
  | cons c rest ih =>
      simp only [updateFirstCategory]
      rw [if_neg (h c (List.mem_cons_self c rest)),
        ih (fun x hx => h x (List.mem_cons_of_mem c hx))]

theorem updateFirstProduct_eq_of_forall_ne (l : List Product) (pid : Nat)
    (u : ProductUpdate) (h : ∀ p ∈ l, p.id ≠ pid) :
    updateFirstProduct l pid u = l := by
  induction l with
  | nil => rfl
  | cons p rest ih =>
      simp only [updateFirstProduct]
      rw [if_neg (h p (List.mem_cons_self p rest)),
        ih (fun x hx => h x (List.mem_cons_of_mem p hx))]

theorem updateFirstInv_eq_of_forall_ne (l : List InventoryItem) (pid : Nat)
    (u : InventoryItemUpdate) (h : ∀ iv ∈ l, iv.product_id ≠ pid) :
    updateFirstInv l pid u = l := by
  induction l with
  | nil => rfl
  | cons iv rest ih =>
      simp only [updateFirstInv]
      rw [if_neg (h iv (List.mem_cons_self iv rest)),
        ih (fun x hx => h x (List.mem_cons_of_mem iv hx))]

/-- Setting one quantity to a non-negative value keeps every stored
quantity non-negative. -/
theorem updateFirstInvQty_nonneg (l : List InventoryItem) (pid : Nat) (q : Int)
    (hq : 0 ≤ q) (h : ∀ iv ∈ l, 0 ≤ iv.quantity) :
    ∀ iv ∈ updateFirstInvQty l pid q, 0 ≤ iv.quantity := by
  induction l with
  | nil => intro iv hiv; cases hiv
  | cons iv0 rest ih =>
      intro iv hiv
      simp only [updateFirstInvQty] at hiv
      by_cases hc : iv0.product_id = pid
      · rw [if_pos hc] at hiv
        rcases List.mem_cons.mp hiv with rfl | h2
        · exact hq
        · exact h iv (List.mem_cons_of_mem iv0 h2)
      · rw [if_neg hc] at hiv
        rcases List.mem_cons.mp hiv with heq | h2
        · rw [heq]; exact h iv0 (List.mem_cons_self iv0 rest)
        · exact ih (fun x hx => h x (List.mem_cons_of_mem iv0 hx)) iv h2

/-- A partial inventory update whose quantity field, when present, is
non-negative keeps every stored quantity non-negative. -/
theorem updateFirstInv_nonneg (l : List InventoryItem) (pid : Nat)
    (u : InventoryItemUpdate) (hu : ∀ q, u.quantity = some q → 0 ≤ q)
    (h : ∀ iv ∈ l, 0 ≤ iv.quantity) :
    ∀ iv ∈ updateFirstInv l pid u, 0 ≤ iv.quantity := by
  induction l with
  | nil => intro iv hiv; cases hiv
  | cons iv0 rest ih =>
      intro iv hiv
      simp only [updateFirstInv] at hiv
      by_cases hc : iv0.product_id = pid
      · rw [if_pos hc] at hiv
        rcases List.mem_cons.mp hiv with heq | h2
        · rw [heq]
          simp only [applyInventoryUpdate]
          cases hq : u.quantity with
          | none => simpa [hq] using h iv0 (List.mem_cons_self iv0 rest)
          | some q => simpa [hq] using hu q hq
        · exact h iv (List.mem_cons_of_mem iv0 h2)
      · rw [if_neg hc] at hiv
        rcases List.mem_cons.mp hiv with heq | h2
        · rw [heq]; exact h iv0 (List.mem_cons_self iv0 rest)
        · exact ih (fun x hx => h x (List.mem_cons_of_mem iv0 hx)) iv h2

/-- `update_inventory` with a non-negative (or absent) requested
quantity preserves the non-negativity invariant, whether it updates an
existing row or creates the missing one from the zero default. -/
theorem invNonneg_updateInventory (db : DB) (pid : Nat)
    (u : InventoryItemUpdate) (hu : ∀ q, u.quantity = some q → 0 ≤ q)
    (h : InvNonneg db) : InvNonneg (updateInventory db pid u).2 := by
  simp only [updateInventory]
  split
  · exact h
  · split
    · exact updateFirstInv_nonneg db.inventory pid u hu h
    · intro iv hiv
      rcases List.mem_append.mp hiv with h2 | h2
      · exact h iv h2
      · rcases List.mem_singleton.mp h2 with rfl
        simp only [applyInventoryUpdate]
        cases hq : u.quantity with
        | none => simp [hq]
        | some q => simpa [hq] using hu q hq

theorem mem_insertSaleDesc {x s : Sale} {l : List Sale} :
    x ∈ insertSaleDesc s l ↔ x = s ∨ x ∈ l := by
  induction l with
  | nil => simp [insertSaleDesc]
  | cons t rest ih =>
      simp only [insertSaleDesc]
      by_cases hc : t.created_at ≤ s.created_at
      · rw [if_pos hc]; simp [List.mem_cons]
      · rw [if_neg hc]
        simp only [List.mem_cons, ih]
        tauto

theorem mem_sortSalesDesc {x : Sale} {l : List Sale} :
    x ∈ sortSalesDesc l ↔ x ∈ l := by
  induction l with
  | nil => simp [sortSalesDesc]
  | cons s rest ih =>
      simp only [sortSalesDesc, mem_insertSaleDesc, ih, List.mem_cons]

theorem length_insertSaleDesc (s : Sale) (l : List Sale) :
    (insertSaleDesc s l).length = l.length + 1 := by
  induction l with
  | nil => rfl
  | cons t rest ih =>
      simp only [insertSaleDesc]
      by_cases hc : t.created_at ≤ s.created_at
      · rw [if_pos hc]; rfl
      · rw [if_neg hc]; simp [List.length_cons, ih]

theorem length_sortSalesDesc (l : List Sale) :
    (sortSalesDesc l).length = l.length := by
  induction l with
  | nil => rfl
  | cons s rest ih =>
      simp only [sortSalesDesc, length_insertSaleDesc, ih, List.length_cons]

theorem pairwise_insertSaleDesc {s : Sale} {l : List Sale}
    (h : l.Pairwise (fun a b => b.created_at ≤ a.created_at)) :
    (insertSaleDesc s l).Pairwise (fun a b => b.created_at ≤ a.created_at) := by
  induction l with
  | nil => simp [insertSaleDesc]
  | cons t rest ih =>
      rcases List.pairwise_cons.mp h with ⟨ht, hrest⟩
      simp only [insertSaleDesc]
      by_cases hc : t.created_at ≤ s.created_at
      · rw [if_pos hc]
        refine List.pairwise_cons.mpr ⟨?_, h⟩
        intro b hb
        rcases List.mem_cons.mp hb with rfl | h2
        · exact hc
        · exact Nat.le_trans (ht b h2) hc
      · rw [if_neg hc]
        refine List.pairwise_cons.mpr ⟨?_, ih hrest⟩
        intro b hb
        rcases mem_insertSaleDesc.mp hb with rfl | h2
        · exact Nat.le_of_lt (Nat.lt_of_not_le hc)
        · exact ht b h2

theorem pairwise_sortSalesDesc (l : List Sale) :
    (sortSalesDesc l).Pairwise (fun a b => b.created_at ≤ a.created_at) := by
  induction l with
  | nil => simp [sortSalesDesc]
  | cons s rest ih => exact pairwise_insertSaleDesc ih

theorem inventory_updateCategory (db : DB) (cid : Nat) (u : CategoryUpdate) :
    (updateCategory db cid u).2.inventory = db.inventory := by
  unfold updateCategory
  cases db.categories.find? (fun c => c.id = cid) <;> rfl

theorem inventory_deleteCategory (db : DB) (cid : Nat) :
    (deleteCategory db cid).2.inventory = db.inventory := by
  unfold deleteCategory
  cases db.categories.find? (fun c => c.id = cid) <;> rfl

theorem inventory_updateProduct (db : DB) (pid : Nat) (u : ProductUpdate) :
    (updateProduct db pid u).2.inventory = db.inventory := by
  unfold updateProduct
  split
  · rfl
  · split
    · split <;> rfl
    · rfl

theorem invNonneg_createProduct (db : DB) (p : ProductCreate)
    (h : InvNonneg db) : InvNonneg (createProduct db p).2 := by
  unfold createProduct
  cases db.categories.find? (fun c => c.id = p.category_id) with
  | none => exact h
  | some c =>
      intro iv hiv
      rcases List.mem_append.mp hiv with h2 | h2
      · exact h iv h2
      · rcases List.mem_singleton.mp h2 with rfl
        exact le_refl 0

theorem invNonneg_deleteProduct (db : DB) (pid : Nat)
    (h : InvNonneg db) : InvNonneg (deleteProduct db pid).2 := by
  unfold deleteProduct
  cases db.products.find? (fun p => p.id = pid) with
  | none => exact h
  | some p =>
      intro iv hiv
      exact h iv (List.mem_of_mem_filter hiv)

/-- The line-item loop keeps every stored quantity non-negative in every
branch: the sufficiency check of line 52 runs before each decrement, so
each new quantity is `old - requested ≥ 0`. -/
theorem processItems_invNonneg (items : List SaleItemCreate) :
    ∀ (cur : DB) (sid : Nat), InvNonneg cur →
      ResultInv (processItems cur sid items) := by
  induction items with
  | nil => intro cur sid h; simpa only [processItems, ResultInv] using h
  | cons item rest ih =>
      intro cur sid h
      simp only [processItems]
      split
      · exact h
      · split
        · exact h
        · rename_i product hprod inv hfind
          split
          · exact h
          · rename_i hlt
            have hq : 0 ≤ inv.quantity - item.quantity :=
              Int.sub_nonneg.mpr (Int.not_lt.mp hlt)
            split
            · exact trivial
            · split
              · exact trivial
              · exact ih _ sid
                  (updateFirstInvQty_nonneg cur.inventory item.product_id
                    (inv.quantity - item.quantity) hq h)

/-- Every row of the outer join pairs a product either with `none` or
with one of its own inventory rows. -/
theorem mem_productJoinRows_inv {db : DB} {p : Product}
    {o : Option InventoryItem} (h : (p, o) ∈ productJoinRows db) :
    o = none ∨
      ∃ iv, o = some iv ∧
        iv ∈ db.inventory.filter (fun x => x.product_id = p.id) := by
  rcases List.mem_flatMap.mp h with ⟨q, hq, hro⟩
  revert hro
  cases hl : db.inventory.filter (fun x => decide (x.product_id = q.id)) with
  | nil =>
      intro hro
      rcases List.mem_singleton.mp hro with heq
      left
      exact (Prod.mk.injEq _ _ _ _ ▸ heq.symm).2.symm
  | cons a l =>
      intro hro
      rcases List.mem_map.mp hro with ⟨iv, hiv, heq⟩
      rcases Prod.mk.injEq _ _ _ _ ▸ heq with ⟨hqp, rfl⟩
      right
      refine ⟨iv, rfl, ?_⟩
      rw [← hqp, hl]
      exact hiv

theorem invNonneg_createSale (db : DB) (uid now : Nat) (sale : SaleCreate)
    (h : InvNonneg db) : InvNonneg (createSale db uid now sale).2 := by
  have hc : InvNonneg { db with sales := db.sales ++ [mkSaleHeader db uid now sale] } := h
  have hp := processItems_invNonneg sale.items
    { db with sales := db.sales ++ [mkSaleHeader db uid now sale] }
    (mkSaleHeader db uid now sale).id hc
  simp only [createSale]
  split <;> rename_i hres <;> rw [hres] at hp <;>
    simp only [ResultInv] at hp
  · exact hp
  · exact hp
  · exact hp
  · exact hc

/-- The `setattr` loop applied to the first matching category satisfies
the per-row patch semantics when ids are unique. -/
theorem forall₂_updateFirstCategory (l : List Category) (cid : Nat)
    (u : CategoryUpdate) (h : l.Pairwise (fun a b => a.id ≠ b.id)) :
    List.Forall₂ (CategoryPatch cid u) l (updateFirstCategory l cid u) := by
  induction l with
  | nil => exact List.Forall₂.nil
  | cons c rest ih =>
      rcases List.pairwise_cons.mp h with ⟨hc, hrest⟩
      simp only [updateFirstCategory]
      by_cases hcid : c.id = cid
      · rw [if_pos hcid]
        refine List.Forall₂.cons (Or.inr ⟨hcid, rfl, ?_, ?_, ?_, ?_⟩) ?_
        · intro hv; simp [applyCategoryUpdate, hv]
        · intro hv; simp [applyCategoryUpdate, hv]
        · intro v hv; simp [applyCategoryUpdate, hv]
        · intro v hv; simp [applyCategoryUpdate, hv]
        · refine List.forall₂_same.mpr ?_
          intro a ha
          exact Or.inl ⟨fun h2 => (hc a ha) (hcid.trans h2.symm), rfl⟩
      · rw [if_neg hcid]
        exact List.Forall₂.cons (Or.inl ⟨hcid, rfl⟩) (ih hrest)

/-- The `setattr` loop applied to the first matching product satisfies
the per-row patch semantics when ids are unique. -/
theorem forall₂_updateFirstProduct (l : List Product) (pid : Nat)
    (u : ProductUpdate) (h : l.Pairwise (fun a b => a.id ≠ b.id)) :
    List.Forall₂ (ProductPatch pid u) l (updateFirstProduct l pid u) := by
  induction l with
  | nil => exact List.Forall₂.nil
  | cons p rest ih =>
      rcases List.pairwise_cons.mp h with ⟨hp, hrest⟩
      simp only [updateFirstProduct]
      by_cases hpid : p.id = pid
      · rw [if_pos hpid]
        refine List.Forall₂.cons (Or.inr ⟨hpid, rfl, ?_, ?_, ?_, ?_, ?_, ?_,
          ?_, ?_, ?_, ?_, ?_, ?_, ?_, ?_, ?_, ?_, ?_, ?_⟩) ?_
        · intro hv; simp [applyProductUpdate, hv]
        · intro hv; simp [applyProductUpdate, hv]
        · intro hv; simp [applyProductUpdate, hv]
        · intro hv; simp [applyProductUpdate, hv]
        · intro hv; simp [applyProductUpdate, hv]
        · intro hv; simp [applyProductUpdate, hv]
        · intro hv; simp [applyProductUpdate, hv]
        · intro hv; simp [applyProductUpdate, hv]
        · intro hv; simp [applyProductUpdate, hv]
        · intro v hv; simp [applyProductUpdate, hv]
        · intro v hv; simp [applyProductUpdate, hv]
        · intro v hv; simp [applyProductUpdate, hv]
        · intro v hv; simp [applyProductUpdate, hv]
        · intro v hv; simp [applyProductUpdate, hv]
        · intro v hv; simp [applyProductUpdate, hv]
        · intro v hv; simp [applyProductUpdate, hv]
        · intro v hv; simp [applyProductUpdate, hv]
        · intro v hv; simp [applyProductUpdate, hv]
        · refine List.forall₂_same.mpr ?_
          intro a ha
          exact Or.inl ⟨fun h2 => (hp a ha) (hpid.trans h2.symm), rfl⟩
      · rw [if_neg hpid]
        exact List.Forall₂.cons (Or.inl ⟨hpid, rfl⟩) (ih hrest)

/-- The partial update applied to the first matching inventory row
satisfies the per-row patch semantics when product ids are unique. -/
theorem forall₂_updateFirstInv (l : List InventoryItem) (pid : Nat)
    (u : InventoryItemUpdate)
    (h : l.Pairwise (fun a b => a.product_id ≠ b.product_id)) :
    List.Forall₂ (InventoryPatch pid u) l (updateFirstInv l pid u) := by
  induction l with
  | nil => exact List.Forall₂.nil
  | cons iv rest ih =>
      rcases List.pairwise_cons.mp h with ⟨hiv, hrest⟩
      simp only [updateFirstInv]
      by_cases hpid : iv.product_id = pid
      · rw [if_pos hpid]
        refine List.Forall₂.cons
          (Or.inr ⟨hpid, rfl, rfl, ?_, ?_, ?_, ?_, ?_, ?_⟩) ?_
        · intro hv; simp [applyInventoryUpdate, hv]
        · intro hv; simp [applyInventoryUpdate, hv]
        · intro hv; simp [applyInventoryUpdate, hv]
        · intro v hv; simp [applyInventoryUpdate, hv]
        · intro v hv; simp [applyInventoryUpdate, hv]
        · intro v hv; simp [applyInventoryUpdate, hv]
        · refine List.forall₂_same.mpr ?_
          intro a ha
          exact Or.inl ⟨fun h2 => (hiv a ha) (hpid.trans h2.symm), rfl⟩
      · rw [if_neg hpid]
        exact List.Forall₂.cons (Or.inl ⟨hpid, rfl⟩) (ih hrest)

/-! ## Claim theorems -/

/-- C3, counterexample to the claim as stated: the public
`update_inventory` endpoint stores the requested quantity directly and
its schema places no lower bound on it, so from the reachable state
`reachStep2` (category, product, zero-stock inventory row) the request
`quantity = -1` succeeds and a reachable state holds a negative
inventory quantity. -/
theorem c3_counterexample :
    Reachable dbNegQty ∧
    ({ id := 1, product_id := 1, quantity := -1, location := none,
       status := .out_of_stock } : InventoryItem) ∈ dbNegQty.inventory ∧
    ¬ (0 : Int) ≤
      ({ id := 1, product_id := 1, quantity := -1, location := none,
         status := .out_of_stock } : InventoryItem).quantity := by
  refine ⟨?_, by decide, by decide⟩
  exact Reachable.stepUpdateInventory reachStep2 1 negQtyUpdate
    (Reachable.stepCreateProduct reachStep1 sampleProductCreate
      (Reachable.stepCreateCategory DB.empty
        { name := "tools", description := none } Reachable.init))

/-- C3 as amended: in the sequential model every inventory quantity is
non-negative in every state reachable by the public operations,
provided each inventory-update request that carries a quantity carries
a non-negative one (the schema itself does not enforce this); in
particular `create_sale` checks the available quantity before each
decrement — later line items of the same sale observing the
already-reduced in-session quantity through the identity map — so the
sale path never drives a quantity below zero. -/
theorem c3_inventory_nonneg_guarded (db : DB) (h : ReachableNN db) :
    ∀ iv ∈ db.inventory, 0 ≤ iv.quantity := by
  induction h with
  | init => intro iv hiv; cases hiv
  | stepCreateCategory db c hr ih => exact ih
  | stepUpdateCategory db cid u hr ih =>
      intro iv hiv
      rw [inventory_updateCategory] at hiv
      exact ih iv hiv
  | stepDeleteCategory db cid hr ih =>
      intro iv hiv
      rw [inventory_deleteCategory] at hiv
      exact ih iv hiv
  | stepCreateProduct db p hr ih => exact invNonneg_createProduct db p ih
  | stepUpdateProduct db pid u hr ih =>
      intro iv hiv
      rw [inventory_updateProduct] at hiv
      exact ih iv hiv
  | stepDeleteProduct db pid hr ih => exact invNonneg_deleteProduct db pid ih
  | stepUpdateInventory db pid u hq hr ih =>
      exact invNonneg_updateInventory db pid u hq ih
  | stepCreateSale db uid now sale hr ih =>
      exact invNonneg_createSale db uid now sale ih

/-- Witness for C3 (amended) at a concrete reachable state: create a
category, a product, then set its stock to 10 by a well-formed
inventory update; the stored quantity is non-negative. -/
theorem c3_inventory_nonneg_guarded_witness :
    ReachableNN dbPosQty ∧
    ({ id := 1, product_id := 1, quantity := 10, location := none,
       status := .out_of_stock } : InventoryItem) ∈ dbPosQty.inventory ∧
    0 ≤ ({ id := 1, product_id := 1, quantity := 10, location := none,
           status := .out_of_stock } : InventoryItem).quantity := by
  have hr : ReachableNN dbPosQty :=
    ReachableNN.stepUpdateInventory reachStep2 1 posQtyUpdate
      (by intro q hq
          simp only [posQtyUpdate, Option.some.injEq] at hq
          omega)
      (ReachableNN.stepCreateProduct reachStep1 sampleProductCreate
        (ReachableNN.stepCreateCategory DB.empty
          { name := "tools", description := none } ReachableNN.init))
  have hm : ({ id := 1, product_id := 1, quantity := 10,
               location := none,
               status := .out_of_stock } : InventoryItem) ∈
      dbPosQty.inventory := by decide
  exact ⟨hr, hm, c3_inventory_nonneg_guarded dbPosQty hr _ hm⟩

/-- C9: every successful product creation synchronously inserts an
inventory row for the new product with quantity 0 and status
`out_of_stock`. -/
theorem c9_create_product_initializes_inventory (db : DB)
    (p : ProductCreate) (prod : Product)
    (h : (createProduct db p).1 = .ok prod) :
    ∃ iv ∈ (createProduct db p).2.inventory,
      iv.product_id = prod.id ∧ iv.quantity = 0 ∧
        iv.status = .out_of_stock := by
  simp only [createProduct] at h ⊢
  split at h <;> rename_i heq
  · simp at h
  · simp only [Except.ok.injEq] at h
    rw [← h]
    exact ⟨{ id := nextId (db.inventory.map (·.id))
             product_id := nextId (db.products.map (·.id))
             quantity := 0
             location := none
             status := .out_of_stock },
      List.mem_append_right _ (List.mem_singleton_self _), rfl, rfl, rfl⟩

/-- Witness for C9: creating `sampleProductCreate` in `reachStep1`
succeeds and yields the zero-quantity `out_of_stock` inventory row. -/
theorem c9_create_product_initializes_inventory_witness :
    (createProduct reachStep1 sampleProductCreate).1 = .ok sampleProduct ∧
      ∃ iv ∈ (createProduct reachStep1 sampleProductCreate).2.inventory,
        iv.product_id = sampleProduct.id ∧ iv.quantity = 0 ∧
          iv.status = .out_of_stock := by
  have h : (createProduct reachStep1 sampleProductCreate).1 =
      .ok sampleProduct := rfl
  exact ⟨h,
    c9_create_product_initializes_inventory reachStep1 sampleProductCreate
      sampleProduct h⟩

/-- C8: a product read never fails on a missing inventory row: the
single read reports the product with `current_stock = 0` and
`status = out_of_stock`, and every entry of the list read whose product
has no inventory row carries the same defaults. -/
theorem c8_missing_inventory_defaults :
    (∀ (db : DB) (pid : Nat) (p : Product),
        db.products.find? (fun q => q.id = pid) = some p →
        db.inventory.find? (fun iv => iv.product_id = pid) = none →
        readProduct db pid =
          .ok { product := p, current_stock := 0, status := .out_of_stock }) ∧
    (∀ (db : DB) (skip limit : Nat) (category_id : Option Nat)
        (search : Option String) (r : ProductWithStock),
        r ∈ readProducts db skip limit category_id search →
        db.inventory.filter (fun iv => iv.product_id = r.product.id) = [] →
        r.current_stock = 0 ∧ r.status = .out_of_stock) := by
  constructor
  · intro db pid p hfind hnone
    simp only [readProduct]
    rw [hfind, hnone]
    rfl
  · intro db skip limit category_id search r hr hemp
    simp only [readProducts] at hr
    rcases List.mem_map.mp hr with ⟨pair, hpair, hws⟩
    have hpair2 : pair ∈ productJoinRows db := by
      have h1 := List.mem_of_mem_drop (List.mem_of_mem_take hpair)
      rcases category_id with _ | cid <;> rcases search with _ | s <;>
        simp only at h1
      · exact h1
      · exact List.mem_of_mem_filter h1
      · exact List.mem_of_mem_filter h1
      · exact List.mem_of_mem_filter (List.mem_of_mem_filter h1)
    rcases pair with ⟨p, o⟩
    have hprod : r.product = p := by
      rw [← hws]; cases o <;> rfl
    rcases mem_productJoinRows_inv hpair2 with rfl | ⟨iv, rfl, hiv⟩
    · rw [← hws]
      exact ⟨rfl, rfl⟩
    · rw [hprod] at hemp
      rw [hemp] at hiv
      cases hiv

/-- Witness for C8: in `dbNoInv` (product 1 has no inventory row) the
single read returns stock 0 / `out_of_stock`, and so does the entry of
the list read. -/
theorem c8_missing_inventory_defaults_witness :
    readProduct dbNoInv 1 =
      .ok { product := sampleProduct, current_stock := 0,
            status := .out_of_stock } ∧
      ({ product := sampleProduct, current_stock := 0,
         status := .out_of_stock } : ProductWithStock).current_stock = 0 ∧
      ({ product := sampleProduct, current_stock := 0,
         status := .out_of_stock } : ProductWithStock).status =
        .out_of_stock := by
  refine ⟨c8_missing_inventory_defaults.1 dbNoInv 1 sampleProduct
      (by decide) (by decide), ?_⟩
  exact c8_missing_inventory_defaults.2 dbNoInv 0 100 none none
    { product := sampleProduct, current_stock := 0, status := .out_of_stock }
    (by decide) (by decide)

/-- C5, counterexample to the claim as stated: in `dbTen` the inventory
row of product 1 exists, yet `delete_product` succeeds and removes both
the product row and the inventory row in the one operation — it does
not require a prior explicit inventory deletion by the caller. -/
theorem c5_counterexample :
    dbTen.inventory ≠ [] ∧
    (deleteProduct dbTen 1).1 = .ok () ∧
    (deleteProduct dbTen 1).2.products = [] ∧
    (deleteProduct dbTen 1).2.inventory = [] := by
  refine ⟨?_, rfl, rfl, rfl⟩
  intro h
  cases h

/-- C5 as amended: the delete endpoint succeeds on an existing product
and itself removes every inventory row of the product together with the
product row (the handler deletes the inventory rows explicitly since
there is no `ON DELETE CASCADE`); other tables are untouched. -/
theorem c5_delete_product_removes_inventory (db : DB) (pid : Nat)
    (p : Product) (h : db.products.find? (fun q => q.id = pid) = some p) :
    (deleteProduct db pid).1 = .ok () ∧
    (deleteProduct db pid).2.products.filter (fun q => q.id = pid) = [] ∧
    (deleteProduct db pid).2.inventory.filter
      (fun iv => iv.product_id = pid) = [] ∧
    (deleteProduct db pid).2.categories = db.categories ∧
    (deleteProduct db pid).2.sales = db.sales ∧
    (deleteProduct db pid).2.saleItems = db.saleItems := by
  simp only [deleteProduct]
  rw [h]
  refine ⟨rfl, ?_, ?_, rfl, rfl, rfl⟩
  · rw [List.filter_eq_nil_iff]
    intro a ha
    have h2 := List.of_mem_filter ha
    simp only [decide_eq_true_eq] at h2 ⊢
    exact h2
  · rw [List.filter_eq_nil_iff]
    intro a ha
    have h2 := List.of_mem_filter ha
    simp only [decide_eq_true_eq] at h2 ⊢
    exact h2

/-- Witness for C5 (amended): deleting product 1 of `dbTen` leaves no
product row and no inventory row for it. -/
theorem c5_delete_product_removes_inventory_witness :
    dbTen.products.find? (fun q => q.id = 1) = some sampleProduct ∧
    (deleteProduct dbTen 1).1 = .ok () ∧
    (deleteProduct dbTen 1).2.products.filter (fun q => q.id = 1) = [] ∧
    (deleteProduct dbTen 1).2.inventory.filter
      (fun iv => iv.product_id = 1) = [] := by
  have h : dbTen.products.find? (fun q => q.id = 1) = some sampleProduct := rfl
  have h2 := c5_delete_product_removes_inventory dbTen 1 sampleProduct h
  exact ⟨h, h2.1, h2.2.1, h2.2.2.1⟩

/-- C6: the category, product and inventory update endpoints implement
partial-update semantics: a failed update leaves the store unchanged,
and a successful one rewrites exactly the targeted row so that each
field absent from the request keeps its previous value and each present
field takes the requested value, every other row staying identical
(`update_inventory` is settled against its spec-modelled body, the
source being truncated). -/
theorem c6_partial_update_semantics :
    (∀ (db : DB) (cid : Nat) (u : CategoryUpdate),
      (∀ e, (updateCategory db cid u).1 = .error e →
        (updateCategory db cid u).2 = db) ∧
      (db.categories.Pairwise (fun a b => a.id ≠ b.id) →
        ∀ c, (updateCategory db cid u).1 = .ok c →
          List.Forall₂ (CategoryPatch cid u) db.categories
            (updateCategory db cid u).2.categories)) ∧
    (∀ (db : DB) (pid : Nat) (u : ProductUpdate),
      (∀ e, (updateProduct db pid u).1 = .error e →
        (updateProduct db pid u).2 = db) ∧
      (db.products.Pairwise (fun a b => a.id ≠ b.id) →
        ∀ p, (updateProduct db pid u).1 = .ok p →
          List.Forall₂ (ProductPatch pid u) db.products
            (updateProduct db pid u).2.products)) ∧
    (∀ (db : DB) (pid : Nat) (u : InventoryItemUpdate),
      (∀ e, (updateInventory db pid u).1 = .error e →
        (updateInventory db pid u).2 = db) ∧
      ((db.inventory.find? (fun iv => iv.product_id = pid)).isSome →
        db.inventory.Pairwise (fun a b => a.product_id ≠ b.product_id) →
        ∀ r, (updateInventory db pid u).1 = .ok r →
        List.Forall₂ (InventoryPatch pid u) db.inventory
          (updateInventory db pid u).2.inventory)) := by
  refine ⟨?_, ?_, ?_⟩
  · intro db cid u
    simp only [updateCategory]
    split
    · exact ⟨fun e _ => rfl, fun _ c h => by simp at h⟩
    · refine ⟨fun e h => by simp at h, fun hpw c h => ?_⟩
      exact forall₂_updateFirstCategory db.categories cid u hpw
  · intro db pid u
    simp only [updateProduct]
    split
    · exact ⟨fun e _ => rfl, fun _ p h => by simp at h⟩
    · split
      · split
        · exact ⟨fun e _ => rfl, fun _ p h => by simp at h⟩
        · refine ⟨fun e h => by simp at h, fun hpw p h => ?_⟩
          exact forall₂_updateFirstProduct db.products pid u hpw
      · refine ⟨fun e h => by simp at h, fun hpw p h => ?_⟩
        exact forall₂_updateFirstProduct db.products pid u hpw
  · intro db pid u
    simp only [updateInventory]
    split
    · exact ⟨fun e _ => rfl, fun hs hpw r h => by simp at h⟩
    · split
      · refine ⟨fun e h => by simp at h, fun hs hpw r h => ?_⟩
        exact forall₂_updateFirstInv db.inventory pid u hpw
      · rename_i hnone
        refine ⟨fun e h => by simp at h, fun hs hpw r h => ?_⟩
        rw [hnone] at hs
        simp at hs

/-- Witness for C6 at a concrete input: renaming category 1 of
`reachStep1` changes only the name and keeps the absent description. -/
theorem c6_partial_update_semantics_witness :
    reachStep1.categories.Pairwise (fun a b => a.id ≠ b.id) ∧
    (updateCategory reachStep1 1 catUpdateW).1 =
      .ok { id := 1, name := "renamed", description := none } ∧
    List.Forall₂ (CategoryPatch 1 catUpdateW) reachStep1.categories
      (updateCategory reachStep1 1 catUpdateW).2.categories := by
  have hpw : reachStep1.categories.Pairwise (fun a b => a.id ≠ b.id) := by
    simp [reachStep1, createCategory, DB.empty]
  have hok : (updateCategory reachStep1 1 catUpdateW).1 =
      .ok { id := 1, name := "renamed", description := none } := rfl
  exact ⟨hpw, hok,
    (c6_partial_update_semantics.1 reachStep1 1 catUpdateW).2 hpw _ hok⟩

/-- C7, counterexample to the claim as stated: a listing request is
also parameterized by `skip`/`limit`, and a window that cannot hold the
matching sales excludes them: with `limit = 0` the sale of `dbDayFive`,
created on day 5, is missing from the result of a request with
`end_date = 5`. -/
theorem c7_counterexample :
    saleDayFive ∈ dbDayFive.sales ∧
    dayStart 5 ≤ saleDayFive.created_at ∧
    saleDayFive.created_at < dayStart (5 + 1) ∧
    saleDayFive ∉ getSales dbDayFive 0 0 none (some 5) := by
  refine ⟨List.mem_singleton_self _, by decide, by decide, ?_⟩
  have h : getSales dbDayFive 0 0 none (some 5) = [] := rfl
  rw [h]
  exact List.not_mem_nil _

/-- C7 as amended: whenever the pagination window covers the matching
sales (`skip = 0`, `limit` at least their number), the result of a
listing with `start_date = S`, `end_date = D` contains exactly the
sales with `dayStart S ≤ created_at < dayStart (D+1)` — so every sale
created at any time on day `D` is included and every sale from day
`D+1` onward is excluded, the start bound being inclusive — and every
listing result, with any pagination and any optional bounds, is ordered
by `created_at` descending. -/
theorem c7_date_filter (db : DB) (S D limit : Nat)
    (hlim : (matchingSales db S D).length ≤ limit) :
    (∀ s, s ∈ getSales db 0 limit (some S) (some D) ↔
        s ∈ db.sales ∧ dayStart S ≤ s.created_at ∧
          s.created_at < dayStart (D + 1)) ∧
    (∀ (skip lim : Nat) (sd ed : Option Nat),
        (getSales db skip lim sd ed).Pairwise
          (fun a b => b.created_at ≤ a.created_at)) := by
  constructor
  · intro s
    simp only [matchingSales] at hlim
    simp only [getSales, List.drop_zero]
    have hlen :
        (sortSalesDesc ((db.sales.filter
              (fun sl => decide (dayStart S ≤ sl.created_at))).filter
            (fun sl => decide (sl.created_at < dayStart (D + 1))))).length ≤
          limit := by
      rw [length_sortSalesDesc]
      exact hlim
    rw [List.take_of_length_le hlen]
    rw [mem_sortSalesDesc, List.mem_filter, List.mem_filter]
    simp only [decide_eq_true_eq]
    tauto
  · intro skip lim sd ed
    have hsorted : ∀ l : List Sale, (((sortSalesDesc l).drop skip).take lim).Pairwise
        (fun a b => b.created_at ≤ a.created_at) := by
      intro l
      exact ((pairwise_sortSalesDesc l).sublist
        (List.drop_sublist skip (sortSalesDesc l))).sublist
        (List.take_sublist lim _)
    rcases sd with _ | s0 <;> rcases ed with _ | d0 <;>
      simp only [getSales] <;> exact hsorted _

/-- Witness for C7 (amended): with a covering window, the day-5 sale is
reported for `end_date = 5` and the result is sorted. -/
theorem c7_date_filter_witness :
    (matchingSales dbDayFive 5 5).length ≤ 100 ∧
    (saleDayFive ∈ getSales dbDayFive 0 100 (some 5) (some 5) ↔
      saleDayFive ∈ dbDayFive.sales ∧
        dayStart 5 ≤ saleDayFive.created_at ∧
        saleDayFive.created_at < dayStart (5 + 1)) ∧
    (getSales dbDayFive 0 100 none none).Pairwise
      (fun a b => b.created_at ≤ a.created_at) := by
  have hlim : (matchingSales dbDayFive 5 5).length ≤ 100 := by decide
  exact ⟨hlim, (c7_date_filter dbDayFive 5 5 100 hlim).1 saleDayFive,
    (c7_date_filter dbDayFive 5 5 100 hlim).2 0 100 none none⟩

/-- C10: `create_sale` accepts an empty line-item list: the request
commits, the stored header carries the caller-supplied `total_amount`
unchecked, the sale has zero items, and no category, product, inventory
or sale-item row is touched (`hri` is referential integrity of the
pre-state: every stored sale item points at an existing sale). -/
theorem c10_empty_items_sale (db : DB) (uid now : Nat) (sale : SaleCreate)
    (hitems : sale.items = [])
    (hri : ∀ si ∈ db.saleItems, ∃ sl ∈ db.sales, si.sale_id = sl.id) :
    (createSale db uid now sale).1 = .ok (mkSaleHeader db uid now sale).id ∧
    (createSale db uid now sale).2.sales =
      db.sales ++ [mkSaleHeader db uid now sale] ∧
    (mkSaleHeader db uid now sale).total_amount = sale.total_amount ∧
    (createSale db uid now sale).2.saleItems = db.saleItems ∧
    (createSale db uid now sale).2.products = db.products ∧
    (createSale db uid now sale).2.inventory = db.inventory ∧
    (createSale db uid now sale).2.categories = db.categories ∧
    (createSale db uid now sale).2.saleItems.filter
      (fun si => si.sale_id = (mkSaleHeader db uid now sale).id) = [] := by
  have hkey : createSale db uid now sale =
      (.ok (mkSaleHeader db uid now sale).id,
        { db with sales := db.sales ++ [mkSaleHeader db uid now sale] }) := by
    simp only [createSale, hitems, processItems]
  rw [hkey]
  refine ⟨rfl, rfl, rfl, rfl, rfl, rfl, rfl, ?_⟩
  rw [List.filter_eq_nil_iff]
  intro si hsi
  rcases hri si hsi with ⟨sl, hsl, heq⟩
  simp only [decide_eq_true_eq, mkSaleHeader]
  rw [heq]
  exact Nat.ne_of_lt (lt_nextId (db.sales.map (·.id)) sl.id
    (List.mem_map.mpr ⟨sl, hsl, rfl⟩))

/-- Witness for C10: an empty-item sale against `dbTen` commits with the
supplied total and leaves the catalog and inventory untouched. -/
theorem c10_empty_items_sale_witness :
    (mkSaleReq []).items = [] ∧
    (createSale dbTen 7 100 (mkSaleReq [])).1 =
      .ok (mkSaleHeader dbTen 7 100 (mkSaleReq [])).id ∧
    (createSale dbTen 7 100 (mkSaleReq [])).2.saleItems = dbTen.saleItems ∧
    (createSale dbTen 7 100 (mkSaleReq [])).2.inventory = dbTen.inventory ∧
    (createSale dbTen 7 100 (mkSaleReq [])).2.products = dbTen.products ∧
    (mkSaleHeader dbTen 7 100 (mkSaleReq [])).total_amount =
      (mkSaleReq []).total_amount := by
  have h := c10_empty_items_sale dbTen 7 100 (mkSaleReq []) rfl
    (by intro si hsi; cases hsi)
  exact ⟨rfl, h.1, h.2.2.2.1, h.2.2.2.2.2.1, h.2.2.2.2.1, h.2.2.1⟩

/-- C1 evaluated at a failing input: a two-item sale whose second item
names a nonexistent product.  The request fails with NotFound, and the
compensating `db.delete(header); db.commit()` removes the header — but
that commit flushes the session, so the first item's sale-item row and
its inventory decrement (10 to 7) persist: the database is *not* as it
was before the request, refuting the full-abort property. -/
theorem c1_partial_effects_persist :
    (createSale dbTen 7 100 (mkSaleReq [itemThree, itemMissing])).1 =
      .error (.productNotFound 2) ∧
    (createSale dbTen 7 100 (mkSaleReq [itemThree, itemMissing])).2.sales
      = [] ∧
    (createSale dbTen 7 100
        (mkSaleReq [itemThree, itemMissing])).2.saleItems.length = 1 ∧
    (createSale dbTen 7 100
        (mkSaleReq [itemThree, itemMissing])).2.inventory.map (·.quantity)
      = [7] ∧
    dbTen.inventory.map (·.quantity) = [10] ∧
    dbTen.saleItems.length = 0 :=
  ⟨rfl, rfl, rfl, rfl, rfl, rfl⟩

/-- C2 evaluated at failing inputs.  First: from `dbStale` (quantity 10
with stale status `out_of_stock`) a sale of 3 commits, decrements the
quantity to 7, but leaves the status `out_of_stock`, while the spec's
threshold rule demands `in_stock` — the success path never recomputes a
status (and could not: the two status branches name the unimported
`StockStatus`).  Second: when the decrement lands below 5, where the
spec demands a `low_stock` commit, the request instead dies with the
`NameError` and commits nothing beyond the header. -/
theorem c2_stale_status_persists :
    (createSale dbStale 7 100 (mkSaleReq [itemThree])).1 = .ok 1 ∧
    (createSale dbStale 7 100 (mkSaleReq [itemThree])).2.inventory.map
      (·.quantity) = [7] ∧
    (createSale dbStale 7 100 (mkSaleReq [itemThree])).2.inventory.map
      (·.status) = [.out_of_stock] ∧
    specThresholdStatus 7 = .in_stock ∧
    (createSale dbTen 7 100 (mkSaleReq [itemSeven])).1 =
      .error .nameError ∧
    (createSale dbTen 7 100 (mkSaleReq [itemSeven])).2.inventory.map
      (·.quantity) = [10] ∧
    specThresholdStatus (10 - 7) = .low_stock :=
  ⟨rfl, rfl, rfl, rfl, rfl, rfl, rfl⟩

/-- C4: `sales.py` never imports `StockStatus`, so whenever a line
item's decrement leaves the quantity at 0 or anywhere below 5 the
status assignment raises an unhandled `NameError` (second conjunct:
reaching such an item makes the loop end in the `NameError`); the error
is not caught, so neither the final commit nor the compensating header
delete runs: the durable state is exactly the pre-state plus the
already-committed orphan header — no sale items, no inventory change
(first conjunct). -/
theorem c4_nameerror_on_status_branch :
    (∀ (db : DB) (uid now : Nat) (sale : SaleCreate),
        (createSale db uid now sale).1 = .error .nameError →
        (createSale db uid now sale).2 =
          { db with sales := db.sales ++ [mkSaleHeader db uid now sale] }) ∧
    (∀ (cur : DB) (sid : Nat) (item : SaleItemCreate)
        (rest : List SaleItemCreate) (product : Product)
        (inv : InventoryItem),
        cur.products.find? (fun p => p.id = item.product_id) =
          some product →
        cur.inventory.find? (fun iv => iv.product_id = item.product_id) =
          some inv →
        ¬ inv.quantity < item.quantity →
        inv.quantity - item.quantity < 5 →
        processItems cur sid (item :: rest) = .nameErr) := by
  constructor
  · intro db uid now sale h
    simp only [createSale] at h ⊢
    split at h
    · simp at h
    · simp at h
    · simp at h
    · rfl
  · intro cur sid item rest product inv hprod hinv hlt h5
    simp only [processItems, hprod, hinv]
    rw [if_neg hlt]
    by_cases hz : inv.quantity - item.quantity ≤ 0
    · rw [if_pos hz]
    · rw [if_neg hz, if_pos h5]

/-- Witness for C4: a sale of 7 units from a stock of 10 (decrement
lands at 3) ends in the `NameError`; the durable state is the pre-state
plus the orphaned header. -/
theorem c4_nameerror_on_status_branch_witness :
    (createSale dbTen 7 100 (mkSaleReq [itemSeven])).1 =
      .error .nameError ∧
    (createSale dbTen 7 100 (mkSaleReq [itemSeven])).2 =
      { dbTen with
        sales := dbTen.sales ++ [mkSaleHeader dbTen 7 100
          (mkSaleReq [itemSeven])] } ∧
    processItems dbTen 1 [itemSeven] = .nameErr := by
  have h : (createSale dbTen 7 100 (mkSaleReq [itemSeven])).1 =
      .error .nameError := rfl
  refine ⟨h, c4_nameerror_on_status_branch.1 dbTen 7 100
    (mkSaleReq [itemSeven]) h, ?_⟩
  exact c4_nameerror_on_status_branch.2 dbTen 1 itemSeven [] sampleProduct
    invRowTen rfl rfl (by decide) (by decide)

end OptaErp
